import Mathlib

/-!
Verification of the ownership-scoped CRUD and state-transition layer of the
task-management API (Django/DRF backend, `api/models.py`, `api/serializers.py`,
`api/views.py`, `taskmanager/settings.py`).

The embedding models:
  * the `Category` and `Task` records of `api/models.py`, with timestamps as
    naturals supplied explicitly where the source calls `timezone.now()`;
  * the model helpers `mark_complete` / `mark_incomplete` (a `save()` also
    refreshes `updated_at`, since the field is declared `auto_now=True`);
  * the serializer validators `CategorySerializer.validate_name` and
    `TaskSerializer.validate_category`, and the ModelSerializer write paths
    (fields listed in `Meta.fields` minus `Meta.read_only_fields` are written;
    the rest of the record is untouched);
  * the viewset querysets (always filtered by `request.user`), the DRF
    object-lookup (404 when the id is not in the scoped queryset), the
    list pipeline (exact filters, search, ordering, pagination) and the
    `toggle` action of `api/views.py`;
  * the relational delete rules declared on the foreign keys
    (`on_delete=CASCADE` for owners, `on_delete=SET_NULL` for categories).

The persistent store is a pair of lists standing for the two tables.
-/

namespace TaskApi

/-- User primary keys (`django.contrib.auth.models.User.id`). -/
abbrev UserId := Nat

/-- Category primary keys. -/
abbrev CategoryId := Nat

/-- Task primary keys. -/
abbrev TaskId := Nat

/-- Timestamps (`DateTimeField`), abstracted to naturals. -/
abbrev Time := Nat

/-- Calendar dates (`DateField`), abstracted to naturals. -/
abbrev Date := Nat

/-- `Task.Priority` text choices of `api/models.py`. -/
inductive Priority where
  | LOW
  | MEDIUM
  | HIGH
deriving DecidableEq, Repr, BEq

/-- Database character value of a priority, as stored in the `CharField`
(`models.TextChoices` stores the first tuple component). -/
def Priority.dbValue : Priority → String
  | .LOW => "LOW"
  | .MEDIUM => "MEDIUM"
  | .HIGH => "HIGH"

/-- `Task.Status` text choices of `api/models.py`. -/
inductive Status where
  | PENDING
  | COMPLETED
deriving DecidableEq, Repr, BEq

/-- Database character value of a status. -/
def Status.dbValue : Status → String
  | .PENDING => "PENDING"
  | .COMPLETED => "COMPLETED"

/-- The `Category` model of `api/models.py`: an owned label with a name of at
most 100 characters and a creation timestamp. -/
structure Category where
  id : CategoryId
  user : UserId
  name : String
  created_at : Time
deriving DecidableEq, Repr

/-- The `Task` model of `api/models.py`.  `category` is the nullable foreign
key (stored as the id); `completed_at` is null exactly while the task has not
been marked completed. -/
structure Task where
  id : TaskId
  user : UserId
  category : Option CategoryId
  title : String
  description : String
  due_date : Date
  priority : Priority
  status : Status
  completed_at : Option Time
  created_at : Time
  updated_at : Time
deriving DecidableEq, Repr

/-- The two relational tables the core owns. -/
structure Store where
  categories : List Category
  tasks : List Task
deriving DecidableEq, Repr

/-- `Task.mark_complete` of `api/models.py`: set status to COMPLETED, record
`completed_at = timezone.now()`, and `save()` (which refreshes the
`auto_now` field `updated_at`). -/
def Task.mark_complete (t : Task) (now : Time) : Task :=
  { t with status := Status.COMPLETED, completed_at := some now, updated_at := now }

/-- `Task.mark_incomplete` of `api/models.py`: revert to PENDING, clear
`completed_at`, and `save()` (refreshing `updated_at`). -/
def Task.mark_incomplete (t : Task) (now : Time) : Task :=
  { t with status := Status.PENDING, completed_at := none, updated_at := now }

namespace TaskViewSet

/-- Body dispatch of `TaskViewSet.toggle` in `api/views.py`.  The request body
value `request.data.get("status")` is an arbitrary optional string; it is
compared against the text-choice values `"COMPLETED"` and `"PENDING"`, and any
other value (including an absent one) falls through to the flip branch. -/
def toggleAction (t : Task) (new_status : Option String) (now : Time) : Task :=
  if new_status = some "COMPLETED" then
    t.mark_complete now
  else if new_status = some "PENDING" then
    t.mark_incomplete now
  else
    if t.status = Status.PENDING then
      t.mark_complete now
    else
      t.mark_incomplete now

end TaskViewSet

/-- Error taxonomy of the API layer: DRF serializer `ValidationError`s
(surfaced as 400) and the `Http404` raised by scoped object lookup. -/
inductive ApiError where
  | ValidationError (detail : String)
  | NotFound
deriving DecidableEq, Repr

/-- ASCII lowercasing of one character (the case folding exercised by the
category names of this API). -/
def lowerChar (c : Char) : Char :=
  if 65 ≤ c.toNat ∧ c.toNat ≤ 90 then Char.ofNat (c.toNat + 32) else c

/-- Lowercased character sequence of a string. -/
def lowerStr (s : String) : List Char :=
  s.toList.map lowerChar

/-- Django `name__iexact` lookup: case-insensitive string equality. -/
def iexact (a b : String) : Bool :=
  lowerStr a == lowerStr b

namespace CategorySerializer

/-- `CategorySerializer.validate_name` of `api/serializers.py`: reject the
value when another category of the requester has the same name up to case,
excluding the instance under update (when there is one). -/
def validate_name (store : Store) (requester : UserId) (instancePk : Option CategoryId)
    (value : String) : Except ApiError String :=
  let qs := store.categories.filter fun c => c.user == requester && iexact c.name value
  let qs : List Category := match instancePk with
    | some pk => qs.filter fun c => c.id != pk
    | none => qs
  if qs.isEmpty then
    Except.ok value
  else
    Except.error (ApiError.ValidationError "You already have a category with this name.")

end CategorySerializer

/-- Resolution of the writable `category` primary key by the ModelSerializer
related field: the field queryset is `Category.objects.all()` (unscoped), so
an id that exists resolves to its object no matter who owns it, and an id of
no category at all is a field-level validation error. -/
def resolve_category (store : Store) (cid : Option CategoryId) :
    Except ApiError (Option Category) :=
  match cid with
  | none => Except.ok none
  | some i =>
    match store.categories.find? (fun c => c.id == i) with
    | some c => Except.ok (some c)
    | none => Except.error (ApiError.ValidationError "Invalid pk - object does not exist.")

namespace TaskSerializer

/-- `TaskSerializer.validate_category` of `api/serializers.py`: a null
reference passes; a non-null reference to a category of another owner is a
`ValidationError`. -/
def validate_category (requester : UserId) (value : Option Category) :
    Except ApiError (Option Category) :=
  match value with
  | none => Except.ok none
  | some c =>
    if c.user ≠ requester then
      Except.error
        (ApiError.ValidationError "You can only assign your own categories to your tasks.")
    else
      Except.ok (some c)

end TaskSerializer

/-- Client-supplied body of a task create request.  The writable fields of
`TaskSerializer.Meta` are `title`, `description`, `due_date`, `priority`,
`status` and `category`; `completed_at`, `created_at`, `updated_at`, `user`
and `category_name` are read-only and cannot be supplied. `description`,
`priority`, `status` and `category` are optional (the model declares
`blank`/`default`/`null`). -/
structure TaskWriteInput where
  title : String
  description : Option String
  due_date : Date
  priority : Option Priority
  status : Option Status
  category : Option CategoryId
deriving DecidableEq, Repr

/-- Client-supplied body of a task PATCH request: every writable field is
optional, and `category`, when present, may itself carry null. -/
structure TaskPatchInput where
  title : Option String
  description : Option String
  due_date : Option Date
  priority : Option Priority
  status : Option Status
  category : Option (Option CategoryId)
deriving DecidableEq, Repr

namespace TaskSerializer

/-- Task create path: `TaskViewSet.perform_create` calls
`serializer.save(user=request.user)`; the ModelSerializer resolves and
validates `category`, fills model defaults for absent optional fields
(`description = ""`, `priority = MEDIUM`, `status = PENDING`), the read-only
`completed_at` starts null, and `auto_now_add`/`auto_now` stamp the
timestamps. -/
def create (store : Store) (requester : UserId) (input : TaskWriteInput)
    (newId : TaskId) (now : Time) : Except ApiError Task :=
  match resolve_category store input.category with
  | Except.error e => Except.error e
  | Except.ok cat =>
    match validate_category requester cat with
    | Except.error e => Except.error e
    | Except.ok cat =>
      Except.ok
        { id := newId
          user := requester
          category := cat.map Category.id
          title := input.title
          description := input.description.getD ""
          due_date := input.due_date
          priority := input.priority.getD Priority.MEDIUM
          status := input.status.getD Status.PENDING
          completed_at := none
          created_at := now
          updated_at := now }

/-- Task update path (PUT/PATCH): each supplied writable field overwrites the
instance field, `category` (when supplied) goes through resolution and
`validate_category`, the read-only fields `completed_at`, `created_at`,
`user` and `id` are left untouched, and `save()` refreshes the `auto_now`
field `updated_at`. -/
def patchUpdate (store : Store) (requester : UserId) (t : Task)
    (input : TaskPatchInput) (now : Time) : Except ApiError Task :=
  let resolved : Except ApiError (Option CategoryId) :=
    match input.category with
    | none => Except.ok t.category
    | some cref =>
      match resolve_category store cref with
      | Except.error e => Except.error e
      | Except.ok cat =>
        match validate_category requester cat with
        | Except.error e => Except.error e
        | Except.ok cat => Except.ok (cat.map Category.id)
  match resolved with
  | Except.error e => Except.error e
  | Except.ok newCat =>
    Except.ok
      { t with
        title := input.title.getD t.title
        description := input.description.getD t.description
        due_date := input.due_date.getD t.due_date
        priority := input.priority.getD t.priority
        status := input.status.getD t.status
        category := newCat
        updated_at := now }

end TaskSerializer

namespace TaskViewSet

/-- `TaskViewSet.get_queryset` of `api/views.py`: only the requester's tasks
(`Task.objects.filter(user=self.request.user)`). -/
def get_queryset (store : Store) (requester : UserId) : List Task :=
  store.tasks.filter fun t => t.user == requester

/-- DRF detail-route object lookup: `get_object` filters the scoped queryset
by the pk from the URL and raises `Http404` when nothing matches — so a task
of another owner and a task that does not exist fail identically. -/
def get_object (store : Store) (requester : UserId) (pk : TaskId) :
    Except ApiError Task :=
  match (get_queryset store requester).find? (fun t => t.id == pk) with
  | some t => Except.ok t
  | none => Except.error ApiError.NotFound

/-- GET `/api/tasks/<pk>/`. -/
def retrieveEndpoint (store : Store) (requester : UserId) (pk : TaskId) :
    Except ApiError Task :=
  get_object store requester pk

/-- DELETE `/api/tasks/<pk>/`: on a successful lookup the row is removed;
a failed lookup leaves the store as it was. -/
def destroyEndpoint (store : Store) (requester : UserId) (pk : TaskId) :
    Except ApiError Unit × Store :=
  match get_object store requester pk with
  | Except.error e => (Except.error e, store)
  | Except.ok t =>
    (Except.ok (), { store with tasks := store.tasks.filter fun x => x.id != t.id })

/-- PUT/PATCH `/api/tasks/<pk>/`: lookup, serializer update, then write-back;
any failure leaves the store as it was. -/
def updateEndpoint (store : Store) (requester : UserId) (pk : TaskId)
    (input : TaskPatchInput) (now : Time) : Except ApiError Task × Store :=
  match get_object store requester pk with
  | Except.error e => (Except.error e, store)
  | Except.ok t =>
    match TaskSerializer.patchUpdate store requester t input now with
    | Except.error e => (Except.error e, store)
    | Except.ok t' =>
      (Except.ok t',
        { store with tasks := store.tasks.map fun x => if x.id = pk then t' else x })

/-- POST `/api/tasks/`: serializer create with the requester injected as
owner; on failure the store is untouched. -/
def createEndpoint (store : Store) (requester : UserId) (input : TaskWriteInput)
    (newId : TaskId) (now : Time) : Except ApiError Task × Store :=
  match TaskSerializer.create store requester input newId now with
  | Except.error e => (Except.error e, store)
  | Except.ok t => (Except.ok t, { store with tasks := store.tasks ++ [t] })

/-- PATCH `/api/tasks/<pk>/toggle/`: scoped lookup, then the toggle dispatch,
then the save; the updated entity is returned. -/
def toggleEndpoint (store : Store) (requester : UserId) (pk : TaskId)
    (body : Option String) (now : Time) : Except ApiError Task × Store :=
  match get_object store requester pk with
  | Except.error e => (Except.error e, store)
  | Except.ok t =>
    let t' := toggleAction t body now
    (Except.ok t',
      { store with tasks := store.tasks.map fun x => if x.id = pk then t' else x })

end TaskViewSet

/-- `on_delete=SET_NULL` on `Task.category`: deleting a category clears the
reference on every task that pointed at it and deletes no task. -/
def delete_category (store : Store) (cid : CategoryId) : Store :=
  { categories := store.categories.filter fun c => c.id != cid
    tasks := store.tasks.map fun t =>
      if t.category == some cid then { t with category := none } else t }

/-- The `SET_NULL` collector step: clear a task's category reference when it
points into the set of rows being deleted. -/
def clearDeadCategoryRef (dead : List Category) (t : Task) : Task :=
  match t.category with
  | some cid =>
    if dead.any (fun c => c.id == cid) then { t with category := none } else t
  | none => t

/-- `on_delete=CASCADE` on `Category.user` and `Task.user`: deleting a user
deletes all of that user's categories and tasks; a surviving task that
referenced one of the deleted categories has its reference cleared by the
`SET_NULL` rule. -/
def delete_user (store : Store) (uid : UserId) : Store :=
  let dead := store.categories.filter fun c => c.user == uid
  { categories := store.categories.filter fun c => c.user != uid
    tasks := (store.tasks.filter fun t => t.user != uid).map (clearDeadCategoryRef dead) }

theorem clearDeadCategoryRef_frame (dead : List Category) (t : Task) :
    (clearDeadCategoryRef dead t).id = t.id ∧ (clearDeadCategoryRef dead t).user = t.user := by
  unfold clearDeadCategoryRef
  cases t.category with
  | none => exact ⟨rfl, rfl⟩
  | some v =>
    by_cases hb : (dead.any fun c => c.id == v) = true <;> simp [hb]

namespace CategoryViewSet

/-- `CategoryViewSet.get_queryset` of `api/views.py`: only the requester's
categories. -/
def get_queryset (store : Store) (requester : UserId) : List Category :=
  store.categories.filter fun c => c.user == requester

/-- DRF detail-route object lookup on the scoped category queryset. -/
def get_object (store : Store) (requester : UserId) (pk : CategoryId) :
    Except ApiError Category :=
  match (get_queryset store requester).find? (fun c => c.id == pk) with
  | some c => Except.ok c
  | none => Except.error ApiError.NotFound

/-- GET `/api/categories/<pk>/`. -/
def retrieveEndpoint (store : Store) (requester : UserId) (pk : CategoryId) :
    Except ApiError Category :=
  get_object store requester pk

/-- POST `/api/categories/`: `validate_name` with no instance, then
`perform_create` injects the requester as owner. -/
def createEndpoint (store : Store) (requester : UserId) (name : String)
    (newId : CategoryId) (now : Time) : Except ApiError Category × Store :=
  match CategorySerializer.validate_name store requester none name with
  | Except.error e => (Except.error e, store)
  | Except.ok v =>
    let c : Category := { id := newId, user := requester, name := v, created_at := now }
    (Except.ok c, { store with categories := store.categories ++ [c] })

/-- PUT/PATCH `/api/categories/<pk>/`: scoped lookup, `validate_name` with
the instance excluded, then the rename is written back. -/
def updateEndpoint (store : Store) (requester : UserId) (pk : CategoryId)
    (name : String) : Except ApiError Category × Store :=
  match get_object store requester pk with
  | Except.error e => (Except.error e, store)
  | Except.ok c =>
    match CategorySerializer.validate_name store requester (some pk) name with
    | Except.error e => (Except.error e, store)
    | Except.ok v =>
      (Except.ok { c with name := v },
        { store with categories := store.categories.map fun x =>
            if x.id = pk then { x with name := v } else x })

/-- DELETE `/api/categories/<pk>/`: scoped lookup, then the relational
`SET_NULL` delete; a failed lookup leaves the store as it was. -/
def destroyEndpoint (store : Store) (requester : UserId) (pk : CategoryId) :
    Except ApiError Unit × Store :=
  match get_object store requester pk with
  | Except.error e => (Except.error e, store)
  | Except.ok c => (Except.ok (), delete_category store c.id)

end CategoryViewSet

/-- Codepoint-wise lexicographic comparison on character lists, the order the
database applies to `CharField` values. -/
def charListLE : List Char → List Char → Bool
  | [], _ => true
  | _ :: _, [] => false
  | a :: as, b :: bs =>
    if a == b then charListLE as bs else decide (a.toNat ≤ b.toNat)

/-- Lexicographic comparison of strings. -/
def strLE (a b : String) : Bool :=
  charListLE a.toList b.toList

/-- Leading-match test: the first list is an initial segment of the second. -/
def leadMatch : List Char → List Char → Bool
  | [], _ => true
  | _ :: _, [] => false
  | a :: as, b :: bs => a == b && leadMatch as bs

/-- Substring test on character lists. -/
def hasSub (pat : List Char) : List Char → Bool
  | [] => pat.isEmpty
  | b :: bs => leadMatch pat (b :: bs) || hasSub pat bs

/-- Django `icontains` lookup: case-insensitive substring containment. -/
def icontains (hay pat : String) : Bool :=
  hasSub (lowerStr pat) (lowerStr hay)

/-- Recognized query parameters of the task list endpoint: the exact-match
`filterset_fields`, the `search` parameter, and the `ordering` parameter
(`api/views.py`, `TaskViewSet`). -/
structure TaskQueryParams where
  priority : Option Priority
  status : Option Status
  due_date : Option Date
  category : Option CategoryId
  search : Option String
  ordering : Option String
deriving DecidableEq, Repr

/-- Recognized query parameters of the category list endpoint (search and
ordering only; `CategoryViewSet` declares no `filterset_fields`). -/
structure CategoryQueryParams where
  search : Option String
  ordering : Option String
deriving DecidableEq, Repr

/-- One exact-match filter of `DjangoFilterBackend`: an absent parameter
imposes no constraint, a present one narrows by equality. -/
def applyExact {α β : Type} (o : Option β) (q : β → α → Bool) (l : List α) : List α :=
  match o with
  | some v => l.filter (q v)
  | none => l

/-- `DjangoFilterBackend` over `filterset_fields = [priority, status,
due_date, category]` of `TaskViewSet`. -/
def filterTasks (p : TaskQueryParams) (l : List Task) : List Task :=
  applyExact p.category (fun v t => t.category == some v)
    (applyExact p.due_date (fun v t => t.due_date == v)
      (applyExact p.status (fun v t => t.status == v)
        (applyExact p.priority (fun v t => t.priority == v) l)))

/-- DRF `SearchFilter` term extraction: the search parameter is split on
commas and whitespace, dropping empty fragments. -/
def searchTerms (s : String) : List String :=
  (((s.replace "," " ").splitOn " ").map String.trim).filter fun w => w ≠ ""

/-- DRF `SearchFilter` over `search_fields = [title, description]` of
`TaskViewSet`: an entry is kept when every term occurs case-insensitively in
its title or description; an absent or empty parameter does not narrow. -/
def searchTasks (search : Option String) (l : List Task) : List Task :=
  match search with
  | none => l
  | some s =>
    let terms := searchTerms s
    if terms.isEmpty then l
    else l.filter fun t => terms.all fun w => icontains t.title w || icontains t.description w

/-- DRF `SearchFilter` over `search_fields = [name]` of `CategoryViewSet`. -/
def searchCategories (search : Option String) (l : List Category) : List Category :=
  match search with
  | none => l
  | some s =>
    let terms := searchTerms s
    if terms.isEmpty then l
    else l.filter fun c => terms.all fun w => icontains c.name w

/-- Strip the optional leading descending marker of an ordering term. -/
def stripDescMarker (f : String) : String :=
  if f.startsWith "-" then f.drop 1 else f

/-- DRF `OrderingFilter` term selection: the parameter splits on commas into
trimmed terms; terms whose field (descending marker stripped) is not in the
view's `ordering_fields` whitelist are discarded; when nothing valid remains
(or no parameter was sent) the view's default `ordering` applies. -/
def orderingTerms (allowed dflt : List String) (param : Option String) : List String :=
  match param with
  | none => dflt
  | some s =>
    let valid := ((s.splitOn ",").map String.trim).filter fun f =>
      allowed.contains (stripDescMarker f)
    if valid.isEmpty then dflt else valid

/-- Stable insertion of an element into a sorted list. -/
def insertSorted {α : Type} (le : α → α → Bool) (a : α) : List α → List α
  | [] => [a]
  | b :: bs => if le a b then a :: b :: bs else b :: insertSorted le a bs

/-- Stable insertion sort. -/
def isort {α : Type} (le : α → α → Bool) (l : List α) : List α :=
  l.foldr (insertSorted le) []

/-- Ascending comparison of two tasks on one whitelisted ordering field
(`due_date`, `priority`, `created_at`); `priority` is a `CharField`, so the
database compares its stored text value. -/
def taskFieldLE (f : String) (a b : Task) : Bool :=
  if f == "due_date" then decide (a.due_date ≤ b.due_date)
  else if f == "priority" then strLE a.priority.dbValue b.priority.dbValue
  else decide (a.created_at ≤ b.created_at)

/-- Comparison of two tasks under one ordering term, honouring the
descending marker. -/
def taskTermLE (term : String) (a b : Task) : Bool :=
  if term.startsWith "-" then taskFieldLE (stripDescMarker term) b a
  else taskFieldLE (stripDescMarker term) a b

/-- Ascending comparison of two categories on one whitelisted ordering field
(`name`, `created_at`). -/
def categoryFieldLE (f : String) (a b : Category) : Bool :=
  if f == "name" then strLE a.name b.name
  else decide (a.created_at ≤ b.created_at)

/-- Comparison of two categories under one ordering term. -/
def categoryTermLE (term : String) (a b : Category) : Bool :=
  if term.startsWith "-" then categoryFieldLE (stripDescMarker term) b a
  else categoryFieldLE (stripDescMarker term) a b

/-- Multi-term ordering: stable sorts are applied from the least significant
term outward, so the first term is the primary sort key. -/
def orderTasks (param : Option String) (l : List Task) : List Task :=
  (orderingTerms ["due_date", "priority", "created_at"] ["-created_at"] param).foldr
    (fun term acc => isort (taskTermLE term) acc) l

/-- Ordering for the category list (`ordering_fields = [name, created_at]`,
default `ordering = [name]`). -/
def orderCategories (param : Option String) (l : List Category) : List Category :=
  (orderingTerms ["name", "created_at"] ["name"] param).foldr
    (fun term acc => isort (categoryTermLE term) acc) l

/-- Modelled from the spec: the effective page size of the paginator
configured in `taskmanager/settings.py` (the pagination class itself is
framework code outside this repository).  The default `PAGE_SIZE` is 10; a
client-requested `page_size` is honoured up to `MAX_PAGE_SIZE = 100`, above
which it is clamped rather than rejected; a non-positive request falls back
to the default. -/
def get_page_size (requested : Option Nat) : Nat :=
  match requested with
  | none => 10
  | some n => if n = 0 then 10 else min n 100

/-- Modelled from the spec: the paginated list envelope
`(count, next, previous, results)`; `next` and `previous` model whether the
corresponding page link is non-null. -/
structure PageEnvelope (α : Type) where
  count : Nat
  next : Bool
  previous : Bool
  results : List α
deriving DecidableEq, Repr

/-- Modelled from the spec: page-number pagination over an ordered result
list — page `p` (1-based; a smaller request is treated as page 1) holds the
`s`-sized slice starting at item `(p-1)*s`. -/
def paginate {α : Type} (l : List α) (page : Nat) (requestedSize : Option Nat) :
    PageEnvelope α :=
  let s := get_page_size requestedSize
  let p := max page 1
  { count := l.length
    next := decide (p * s < l.length)
    previous := decide (1 < p)
    results := (l.drop ((p - 1) * s)).take s }

namespace TaskViewSet

/-- GET `/api/tasks/`: the scoped queryset run through the three filter
backends in declared order, then paginated. -/
def listEndpoint (store : Store) (requester : UserId) (params : TaskQueryParams)
    (page : Nat) (page_size : Option Nat) : PageEnvelope Task :=
  paginate
    (orderTasks params.ordering
      (searchTasks params.search
        (filterTasks params (get_queryset store requester))))
    page page_size

end TaskViewSet

namespace CategoryViewSet

/-- GET `/api/categories/`: the scoped queryset run through search and
ordering, then paginated. -/
def listEndpoint (store : Store) (requester : UserId) (params : CategoryQueryParams)
    (page : Nat) (page_size : Option Nat) : PageEnvelope Category :=
  paginate
    (orderCategories params.ordering
      (searchCategories params.search (get_queryset store requester)))
    page page_size

end CategoryViewSet

theorem mem_insertSorted {α : Type} {le : α → α → Bool} {x a : α} {l : List α}
    (h : a ∈ insertSorted le x l) : a = x ∨ a ∈ l := by
  induction l with
  | nil => simpa [insertSorted] using h
  | cons b bs ih =>
    rw [insertSorted] at h
    split at h
    · rcases List.mem_cons.mp h with h | h
      · exact Or.inl h
      · exact Or.inr h
    · rcases List.mem_cons.mp h with h | h
      · exact Or.inr (by simp [h])
      · rcases ih h with h | h
        · exact Or.inl h
        · exact Or.inr (List.mem_cons_of_mem _ h)

theorem mem_isort {α : Type} {le : α → α → Bool} {a : α} {l : List α}
    (h : a ∈ isort le l) : a ∈ l := by
  induction l with
  | nil => simp [isort] at h
  | cons b bs ih =>
    rw [isort, List.foldr_cons] at h
    rcases mem_insertSorted h with h | h
    · simp [h]
    · exact List.mem_cons_of_mem _ (ih h)

theorem mem_orderFold {α : Type} {cmp : String → α → α → Bool} {terms : List String}
    {l : List α} {a : α}
    (h : a ∈ terms.foldr (fun term acc => isort (cmp term) acc) l) : a ∈ l := by
  induction terms with
  | nil => simpa using h
  | cons t ts ih => exact ih (mem_isort h)

theorem mem_applyExact {α β : Type} {o : Option β} {q : β → α → Bool} {l : List α}
    {a : α} (h : a ∈ applyExact o q l) : a ∈ l := by
  cases o with
  | none => simpa [applyExact] using h
  | some v => exact (List.mem_filter.mp (by simpa [applyExact] using h)).1

theorem mem_filterTasks {p : TaskQueryParams} {l : List Task} {a : Task}
    (h : a ∈ filterTasks p l) : a ∈ l :=
  mem_applyExact (mem_applyExact (mem_applyExact (mem_applyExact h)))

theorem mem_searchTasks {search : Option String} {l : List Task} {a : Task}
    (h : a ∈ searchTasks search l) : a ∈ l := by
  cases search with
  | none => simpa [searchTasks] using h
  | some s =>
    simp only [searchTasks] at h
    by_cases he : (searchTerms s).isEmpty
    · simpa [he] using h
    · simp only [he, if_false] at h
      exact (List.mem_filter.mp h).1

theorem mem_searchCategories {search : Option String} {l : List Category} {a : Category}
    (h : a ∈ searchCategories search l) : a ∈ l := by
  cases search with
  | none => simpa [searchCategories] using h
  | some s =>
    simp only [searchCategories] at h
    by_cases he : (searchTerms s).isEmpty
    · simpa [he] using h
    · simp only [he, if_false] at h
      exact (List.mem_filter.mp h).1

theorem mem_orderTasks {param : Option String} {l : List Task} {a : Task}
    (h : a ∈ orderTasks param l) : a ∈ l :=
  @mem_orderFold Task taskTermLE _ _ _ h

theorem mem_orderCategories {param : Option String} {l : List Category} {a : Category}
    (h : a ∈ orderCategories param l) : a ∈ l :=
  @mem_orderFold Category categoryTermLE _ _ _ h

theorem mem_paginate {α : Type} {l : List α} {page : Nat} {ps : Option Nat} {a : α}
    (h : a ∈ (paginate l page ps).results) : a ∈ l :=
  List.mem_of_mem_drop (List.mem_of_mem_take h)

/-- Concrete fixtures used by the witness theorems. -/
def demoCat1 : Category :=
  { id := 1, user := 1, name := "Work", created_at := 1 }

def demoCat2 : Category :=
  { id := 2, user := 2, name := "Private", created_at := 2 }

def demoTask1 : Task :=
  { id := 1, user := 1, category := some 1, title := "Write tests", description := "",
    due_date := 10, priority := Priority.MEDIUM, status := Status.PENDING,
    completed_at := none, created_at := 3, updated_at := 3 }

def demoTask2 : Task :=
  { id := 2, user := 2, category := none, title := "Other work", description := "",
    due_date := 11, priority := Priority.HIGH, status := Status.PENDING,
    completed_at := none, created_at := 4, updated_at := 4 }

/-- A two-user store: each user owns one category and one task. -/
def demoStore : Store :=
  { categories := [demoCat1, demoCat2], tasks := [demoTask1, demoTask2] }

/-- Task list parameters with nothing requested. -/
def noTaskParams : TaskQueryParams :=
  { priority := none, status := none, due_date := none, category := none,
    search := none, ordering := none }

/-- Category list parameters with nothing requested. -/
def noCategoryParams : CategoryQueryParams :=
  { search := none, ordering := none }

/-- C1: for every combination of exact filters, search, ordering and
pagination parameters, every task and every category in a list response is
owned by the requester — the backends only ever narrow, reorder or slice the
owner-scoped queryset. -/
theorem list_results_owned (store : Store) (requester : UserId)
    (tp : TaskQueryParams) (cp : CategoryQueryParams)
    (page : Nat) (page_size : Option Nat) :
    (∀ t ∈ (TaskViewSet.listEndpoint store requester tp page page_size).results,
      t.user = requester) ∧
    (∀ c ∈ (CategoryViewSet.listEndpoint store requester cp page page_size).results,
      c.user = requester) := by
  constructor
  · intro t ht
    have h1 : t ∈ TaskViewSet.get_queryset store requester :=
      mem_filterTasks (mem_searchTasks (mem_orderTasks (mem_paginate ht)))
    have h2 := (List.mem_filter.mp h1).2
    simpa using h2
  · intro c hc
    have h1 : c ∈ CategoryViewSet.get_queryset store requester :=
      mem_searchCategories (mem_orderCategories (mem_paginate hc))
    have h2 := (List.mem_filter.mp h1).2
    simpa using h2

/-- Witness for `list_results_owned` on the two-user store: the task and
category of user 1 do appear in user 1's list responses, and the theorem
yields their ownership. -/
theorem list_results_owned_witness :
    demoTask1.user = 1 ∧ demoCat1.user = 1 :=
  ⟨(list_results_owned demoStore 1 noTaskParams noCategoryParams 1 none).1
      demoTask1 (by decide),
   (list_results_owned demoStore 1 noTaskParams noCategoryParams 1 none).2
      demoCat1 (by decide)⟩

/-- C8: the page size defaults to 10 when none is requested, a positive
requested size is honoured up to the hard maximum 100 and clamped to 100
above it (never rejected), and the envelope carries the total count, the
next/previous page indicators and the page's items (a slice of the result
list no longer than the page size). -/
theorem pagination_contract :
    get_page_size none = 10 ∧
    (∀ n : Nat, 100 < n → get_page_size (some n) = 100) ∧
    (∀ n : Nat, 0 < n → n ≤ 100 → get_page_size (some n) = n) ∧
    (∀ (l : List Task) (page : Nat) (ps : Option Nat),
      (paginate l page ps).count = l.length ∧
      (paginate l page ps).results.length ≤ get_page_size ps ∧
      (∀ a ∈ (paginate l page ps).results, a ∈ l) ∧
      ((paginate l page ps).next = true ↔
        max page 1 * get_page_size ps < l.length) ∧
      ((paginate l page ps).previous = true ↔ 1 < max page 1)) := by
  refine ⟨rfl, ?_, ?_, ?_⟩
  · intro n h
    simp only [get_page_size]
    have h0 : ¬ n = 0 := by omega
    simp [h0]
    omega
  · intro n h0 h100
    simp only [get_page_size]
    have hn : ¬ n = 0 := by omega
    simp [hn]
    omega
  · intro l page ps
    refine ⟨rfl, ?_, ?_, ?_, ?_⟩
    · simp [paginate]
    · intro a ha
      exact mem_paginate ha
    · simp [paginate]
    · simp [paginate]

/-- Witness for `pagination_contract`: the default size, the clamp at a
requested size of 500, an honoured size of 25, and the envelope facts on a
concrete one-task list at page 1. -/
theorem pagination_contract_witness :
    get_page_size (some 500) = 100 ∧
    get_page_size (some 25) = 25 ∧
    (paginate [demoTask1] 1 (some 500)).count = 1 ∧
    ((paginate [demoTask1] 1 (some 500)).previous = true ↔ 1 < max 1 1) :=
  ⟨pagination_contract.2.1 500 (by decide),
   pagination_contract.2.2.1 25 (by decide) (by decide),
   (pagination_contract.2.2.2 [demoTask1] 1 (some 500)).1,
   (pagination_contract.2.2.2 [demoTask1] 1 (some 500)).2.2.2.2⟩

/-- A patch body supplying no field. -/
def noPatch : TaskPatchInput :=
  { title := none, description := none, due_date := none, priority := none,
    status := none, category := none }

theorem task_get_object_notfound {store : Store} {requester : UserId} {pk : TaskId}
    (h : ∀ t ∈ store.tasks, t.id = pk → t.user ≠ requester) :
    TaskViewSet.get_object store requester pk = Except.error ApiError.NotFound := by
  unfold TaskViewSet.get_object
  have hfind : (TaskViewSet.get_queryset store requester).find? (fun t => t.id == pk)
      = none := by
    rw [List.find?_eq_none]
    intro t htq hbeq
    have hmem := (List.mem_filter.mp htq).1
    have huser : t.user = requester := by simpa using (List.mem_filter.mp htq).2
    have hid : t.id = pk := by simpa using hbeq
    exact h t hmem hid huser
  rw [hfind]

theorem category_get_object_notfound {store : Store} {requester : UserId}
    {pk : CategoryId}
    (h : ∀ c ∈ store.categories, c.id = pk → c.user ≠ requester) :
    CategoryViewSet.get_object store requester pk = Except.error ApiError.NotFound := by
  unfold CategoryViewSet.get_object
  have hfind : (CategoryViewSet.get_queryset store requester).find? (fun c => c.id == pk)
      = none := by
    rw [List.find?_eq_none]
    intro c hcq hbeq
    have hmem := (List.mem_filter.mp hcq).1
    have huser : c.user = requester := by simpa using (List.mem_filter.mp hcq).2
    have hid : c.id = pk := by simpa using hbeq
    exact h c hmem hid huser
  rw [hfind]

/-- C6: a detail request (retrieve, update, delete, and for tasks the toggle)
naming an id that does not exist or that belongs to another owner fails with
the one error value NotFound — the two cases are indistinguishable and no
forbidden-style error exists in the model — and the store is unchanged. -/
theorem detail_lookup_scoped (store : Store) (requester : UserId)
    (pk : TaskId) (cpk : CategoryId) (input : TaskPatchInput) (body : Option String)
    (now : Time) (newName : String)
    (ht : ∀ t ∈ store.tasks, t.id = pk → t.user ≠ requester)
    (hc : ∀ c ∈ store.categories, c.id = cpk → c.user ≠ requester) :
    TaskViewSet.retrieveEndpoint store requester pk = Except.error ApiError.NotFound ∧
    TaskViewSet.destroyEndpoint store requester pk
      = (Except.error ApiError.NotFound, store) ∧
    TaskViewSet.updateEndpoint store requester pk input now
      = (Except.error ApiError.NotFound, store) ∧
    TaskViewSet.toggleEndpoint store requester pk body now
      = (Except.error ApiError.NotFound, store) ∧
    CategoryViewSet.retrieveEndpoint store requester cpk = Except.error ApiError.NotFound ∧
    CategoryViewSet.updateEndpoint store requester cpk newName
      = (Except.error ApiError.NotFound, store) ∧
    CategoryViewSet.destroyEndpoint store requester cpk
      = (Except.error ApiError.NotFound, store) := by
  have hto := task_get_object_notfound ht
  have hco := category_get_object_notfound hc
  refine ⟨?_, ?_, ?_, ?_, ?_, ?_, ?_⟩
  · simpa [TaskViewSet.retrieveEndpoint] using hto
  · simp [TaskViewSet.destroyEndpoint, hto]
  · simp [TaskViewSet.updateEndpoint, hto]
  · simp [TaskViewSet.toggleEndpoint, hto]
  · simpa [CategoryViewSet.retrieveEndpoint] using hco
  · simp [CategoryViewSet.updateEndpoint, hco]
  · simp [CategoryViewSet.destroyEndpoint, hco]

/-- Witness for `detail_lookup_scoped` on the two-user store: task 2 exists
but belongs to user 2 (the other-owner case) and category 99 does not exist
at all (the missing case); user 1 gets NotFound with the store intact in
both. -/
theorem detail_lookup_scoped_witness :
    TaskViewSet.retrieveEndpoint demoStore 1 2 = Except.error ApiError.NotFound ∧
    TaskViewSet.destroyEndpoint demoStore 1 2
      = (Except.error ApiError.NotFound, demoStore) ∧
    TaskViewSet.updateEndpoint demoStore 1 2 noPatch 9
      = (Except.error ApiError.NotFound, demoStore) ∧
    TaskViewSet.toggleEndpoint demoStore 1 2 none 9
      = (Except.error ApiError.NotFound, demoStore) ∧
    CategoryViewSet.retrieveEndpoint demoStore 1 99 = Except.error ApiError.NotFound ∧
    CategoryViewSet.updateEndpoint demoStore 1 99 "X"
      = (Except.error ApiError.NotFound, demoStore) ∧
    CategoryViewSet.destroyEndpoint demoStore 1 99
      = (Except.error ApiError.NotFound, demoStore) :=
  detail_lookup_scoped demoStore 1 2 99 noPatch none 9 "X"
    (by decide) (by decide)

/-- C5: a non-null category reference whose owner differs from the requester
makes `validate_category` — and with it the whole create or update — fail
with the cross-owner ValidationError, while a null reference always passes
the check. -/
theorem cross_owner_category_rejected (store : Store) (requester : UserId)
    (c : Category) (cid : CategoryId) (input : TaskWriteInput) (p : TaskPatchInput)
    (t : Task) (newId : TaskId) (now : Time)
    (hfind : store.categories.find? (fun x => x.id == cid) = some c)
    (howner : c.user ≠ requester) :
    (∀ u : UserId, TaskSerializer.validate_category u none = Except.ok none) ∧
    TaskSerializer.validate_category requester (some c)
      = Except.error (ApiError.ValidationError
          "You can only assign your own categories to your tasks.") ∧
    (input.category = some cid →
      TaskSerializer.create store requester input newId now
        = Except.error (ApiError.ValidationError
            "You can only assign your own categories to your tasks.")) ∧
    (p.category = some (some cid) →
      TaskSerializer.patchUpdate store requester t p now
        = Except.error (ApiError.ValidationError
            "You can only assign your own categories to your tasks.")) := by
  refine ⟨fun u => rfl, ?_, ?_, ?_⟩
  · simp [TaskSerializer.validate_category, howner]
  · intro hcat
    simp [TaskSerializer.create, resolve_category, hcat, hfind,
      TaskSerializer.validate_category, howner]
  · intro hcat
    simp [TaskSerializer.patchUpdate, resolve_category, hcat, hfind,
      TaskSerializer.validate_category, howner]

/-- Witness for `cross_owner_category_rejected`: user 1 tries to attach user
2's category (id 2) to a new task and to an existing task. -/
theorem cross_owner_category_rejected_witness :
    TaskSerializer.validate_category 1 (some demoCat2)
      = Except.error (ApiError.ValidationError
          "You can only assign your own categories to your tasks.") ∧
    TaskSerializer.create demoStore 1
      { title := "Sneaky task", description := none, due_date := 12,
        priority := none, status := none, category := some 2 } 9 5
      = Except.error (ApiError.ValidationError
          "You can only assign your own categories to your tasks.") ∧
    TaskSerializer.patchUpdate demoStore 1 demoTask1
      { noPatch with category := some (some 2) } 5
      = Except.error (ApiError.ValidationError
          "You can only assign your own categories to your tasks.") :=
  ⟨(cross_owner_category_rejected demoStore 1 demoCat2 2
      { title := "Sneaky task", description := none, due_date := 12,
        priority := none, status := none, category := some 2 }
      { noPatch with category := some (some 2) } demoTask1 9 5
      (by decide) (by decide)).2.1,
   (cross_owner_category_rejected demoStore 1 demoCat2 2
      { title := "Sneaky task", description := none, due_date := 12,
        priority := none, status := none, category := some 2 }
      { noPatch with category := some (some 2) } demoTask1 9 5
      (by decide) (by decide)).2.2.1 rfl,
   (cross_owner_category_rejected demoStore 1 demoCat2 2
      { title := "Sneaky task", description := none, due_date := 12,
        priority := none, status := none, category := some 2 }
      { noPatch with category := some (some 2) } demoTask1 9 5
      (by decide) (by decide)).2.2.2 rfl⟩

/-- C2 fails on the code: `status` is a writable field of `TaskSerializer`
while `completed_at` is read-only and only the toggle path maintains the
pair, so the ordinary update endpoint accepting a client-supplied status
produces a task with `status = COMPLETED` and `completed_at = null` —
against the declared invariant (`completed_at` is documented in
`api/models.py` as set exactly when the task is marked COMPLETED). -/
theorem update_status_breaks_completion_invariant :
    (TaskViewSet.updateEndpoint demoStore 1 1
        { noPatch with status := some Status.COMPLETED } 5).1
      = Except.ok { demoTask1 with status := Status.COMPLETED, updated_at := 5 } ∧
    ({ demoTask1 with status := Status.COMPLETED, updated_at := 5 } : Task).status
      = Status.COMPLETED ∧
    ({ demoTask1 with status := Status.COMPLETED, updated_at := 5 } : Task).completed_at
      = none := by
  exact ⟨rfl, rfl, rfl⟩

/-- C9: deleting a category touches no task except to clear references to it
— every task survives with every other field intact, no surviving reference
to the deleted category remains, and the category row itself is gone — and
deleting a user removes exactly that user's categories and tasks. -/
theorem delete_rules (store : Store) (cid : CategoryId) (uid : UserId) :
    (delete_category store cid).tasks.length = store.tasks.length ∧
    (∀ t ∈ store.tasks,
      ∃ t' ∈ (delete_category store cid).tasks,
        t'.id = t.id ∧ t'.user = t.user ∧ t'.title = t.title ∧
        t'.description = t.description ∧ t'.due_date = t.due_date ∧
        t'.priority = t.priority ∧ t'.status = t.status ∧
        t'.completed_at = t.completed_at ∧ t'.created_at = t.created_at ∧
        t'.updated_at = t.updated_at ∧
        t'.category = (if t.category = some cid then none else t.category)) ∧
    (∀ t ∈ (delete_category store cid).tasks, t.category ≠ some cid) ∧
    (∀ c ∈ (delete_category store cid).categories, c.id ≠ cid) ∧
    (∀ c ∈ (delete_user store uid).categories, c.user ≠ uid) ∧
    (∀ t ∈ (delete_user store uid).tasks, t.user ≠ uid) ∧
    (∀ c ∈ store.categories, c.user ≠ uid → c ∈ (delete_user store uid).categories) ∧
    (∀ t ∈ store.tasks, t.user ≠ uid →
      ∃ t' ∈ (delete_user store uid).tasks, t'.id = t.id ∧ t'.user = t.user) := by
  refine ⟨?_, ?_, ?_, ?_, ?_, ?_, ?_, ?_⟩
  · simp [delete_category]
  · intro t ht
    refine ⟨if t.category = some cid then { t with category := none } else t, ?_, ?_⟩
    · have hm := List.mem_map_of_mem
        (fun x : Task =>
          if x.category == some cid then { x with category := none } else x) ht
      by_cases h : t.category = some cid <;>
        simpa [delete_category, h] using hm
    · by_cases h : t.category = some cid <;> simp [h]
  · intro t ht
    simp only [delete_category] at ht
    rcases List.mem_map.mp ht with ⟨x, _, hfx⟩
    by_cases h : x.category = some cid
    · rw [← hfx]; simp [h]
    · rw [← hfx]; simp [h]
  · intro c hc
    have h : c ∈ store.categories ∧ ¬ c.id = cid := by
      simpa [delete_category] using hc
    exact h.2
  · intro c hc
    have h : c ∈ store.categories ∧ ¬ c.user = uid := by
      simpa [delete_user] using hc
    exact h.2
  · intro t ht
    simp only [delete_user] at ht
    rcases List.mem_map.mp ht with ⟨x, hx, hfx⟩
    have hxu : x.user ≠ uid := by
      have h := (List.mem_filter.mp hx).2
      simpa using h
    have huser : t.user = x.user := by
      rw [← hfx]
      exact (clearDeadCategoryRef_frame _ x).2
    rw [huser]
    exact hxu
  · intro c hc hcu
    simp only [delete_user]
    exact List.mem_filter.mpr ⟨hc, by simpa using hcu⟩
  · intro t ht htu
    have hfil : t ∈ store.tasks.filter fun x => x.user != uid :=
      List.mem_filter.mpr ⟨ht, by simpa using htu⟩
    have hmem :
        clearDeadCategoryRef (store.categories.filter fun c => c.user == uid) t
          ∈ (delete_user store uid).tasks := by
      simp only [delete_user]
      exact List.mem_map_of_mem _ hfil
    exact ⟨clearDeadCategoryRef (store.categories.filter fun c => c.user == uid) t,
      hmem, (clearDeadCategoryRef_frame _ t).1, (clearDeadCategoryRef_frame _ t).2⟩

/-- Witness for `delete_rules` on the two-user store: deleting category 1
keeps task 1 (reference cleared) with no surviving reference, and deleting
user 2 keeps user 1's category and task. -/
theorem delete_rules_witness :
    (∃ t' ∈ (delete_category demoStore 1).tasks,
      t'.id = demoTask1.id ∧ t'.user = demoTask1.user ∧ t'.title = demoTask1.title ∧
      t'.description = demoTask1.description ∧ t'.due_date = demoTask1.due_date ∧
      t'.priority = demoTask1.priority ∧ t'.status = demoTask1.status ∧
      t'.completed_at = demoTask1.completed_at ∧ t'.created_at = demoTask1.created_at ∧
      t'.updated_at = demoTask1.updated_at ∧
      t'.category = (if demoTask1.category = some 1 then none else demoTask1.category)) ∧
    ({ demoTask1 with category := none } : Task).category ≠ some 1 ∧
    demoCat1.user ≠ 2 ∧
    (∃ t' ∈ (delete_user demoStore 2).tasks,
      t'.id = demoTask1.id ∧ t'.user = demoTask1.user) :=
  ⟨(delete_rules demoStore 1 2).2.1 demoTask1 (by decide),
   (delete_rules demoStore 1 2).2.2.1 { demoTask1 with category := none } (by decide),
   (delete_rules demoStore 1 2).2.2.2.2.1 demoCat1 (by decide),
   (delete_rules demoStore 1 2).2.2.2.2.2.2.2 demoTask1 (by decide) (by decide)⟩

/-- Per-owner case-insensitive uniqueness of category names: no two rows of
the table share an owner and a lowercased name. -/
@[reducible] def category_names_ok (cats : List Category) : Prop :=
  List.Pairwise (fun a b => a.user = b.user → iexact a.name b.name = false) cats

/-- Primary keys are pairwise distinct. -/
@[reducible] def category_ids_ok (cats : List Category) : Prop :=
  List.Pairwise (fun a b => a.id ≠ b.id) cats

theorem iexact_symm (a b : String) : iexact a b = iexact b a := by
  unfold iexact
  by_cases h : lowerStr a = lowerStr b
  · rw [h]
  · rw [beq_eq_false_iff_ne.mpr h, beq_eq_false_iff_ne.mpr (Ne.symm h)]

theorem iexact_trans_pair {a b v : String} (ha : iexact a v = true)
    (hb : iexact b v = true) : iexact a b = true := by
  unfold iexact at *
  have ha2 : lowerStr a = lowerStr v := by simpa using ha
  have hb2 : lowerStr b = lowerStr v := by simpa using hb
  simp [ha2, hb2]

theorem ids_ok_mem_eq {l : List Category} (h : category_ids_ok l) {a b : Category}
    (ha : a ∈ l) (hb : b ∈ l) (hid : a.id = b.id) : a = b := by
  induction l with
  | nil => cases ha
  | cons x xs ih =>
    rcases List.pairwise_cons.mp h with ⟨hx, hxs⟩
    rcases List.mem_cons.mp ha with ha1 | ha2 <;> rcases List.mem_cons.mp hb with hb1 | hb2
    · rw [ha1, hb1]
    · exact absurd hid (by rw [ha1]; exact hx b hb2)
    · exact absurd hid.symm (by rw [hb1]; exact hx a ha2)
    · exact ih hxs ha2 hb2

theorem names_ok_mem_eq {l : List Category} (h : category_names_ok l) {a b : Category}
    (ha : a ∈ l) (hb : b ∈ l) (hu : a.user = b.user)
    (hx : iexact a.name b.name = true) : a = b := by
  induction l with
  | nil => cases ha
  | cons x xs ih =>
    rcases List.pairwise_cons.mp h with ⟨hhead, hxs⟩
    rcases List.mem_cons.mp ha with ha1 | ha2 <;> rcases List.mem_cons.mp hb with hb1 | hb2
    · rw [ha1, hb1]
    · rw [ha1] at hu hx
      exact absurd hx (by simp [hhead b hb2 hu])
    · rw [hb1] at hu hx
      rw [iexact_symm] at hx
      exact absurd hx (by simp [hhead a ha2 hu.symm])
    · exact ih hxs ha2 hb2

theorem category_get_object_found {store : Store} {u : UserId} {c0 : Category}
    (hids : category_ids_ok store.categories) (hmem : c0 ∈ store.categories)
    (huser : c0.user = u) :
    CategoryViewSet.get_object store u c0.id = Except.ok c0 := by
  unfold CategoryViewSet.get_object
  have hq : c0 ∈ CategoryViewSet.get_queryset store u :=
    List.mem_filter.mpr ⟨hmem, by simpa using huser⟩
  cases hfind : (CategoryViewSet.get_queryset store u).find? (fun c => c.id == c0.id) with
  | none =>
    rw [List.find?_eq_none] at hfind
    exact absurd (by simp : ((fun c : Category => c.id == c0.id) c0) = true)
      (by simpa using hfind c0 hq)
  | some c1 =>
    have hp := List.find?_some hfind
    have hm1 : c1 ∈ CategoryViewSet.get_queryset store u :=
      List.mem_of_find?_eq_some hfind
    have hid : c1.id = c0.id := by simpa using hp
    rw [ids_ok_mem_eq hids (List.mem_filter.mp hm1).1 hmem hid]

theorem category_get_object_facts {store : Store} {u : UserId} {pk : CategoryId}
    {c1 : Category} (h : CategoryViewSet.get_object store u pk = Except.ok c1) :
    c1 ∈ store.categories ∧ c1.user = u ∧ c1.id = pk := by
  unfold CategoryViewSet.get_object at h
  cases hfind : (CategoryViewSet.get_queryset store u).find? (fun c => c.id == pk) with
  | none => rw [hfind] at h; cases h
  | some cx =>
    rw [hfind] at h
    injection h with hcx
    subst hcx
    have hp := List.find?_some hfind
    have hm := List.mem_of_find?_eq_some hfind
    refine ⟨(List.mem_filter.mp hm).1, ?_, by simpa using hp⟩
    simpa using (List.mem_filter.mp hm).2

theorem validate_name_collision {store : Store} {u : UserId} {v : String}
    {inst : Option CategoryId} {c : Category}
    (hc : c ∈ store.categories) (hcu : c.user = u) (hcn : iexact c.name v = true)
    (hinst : ∀ pk, inst = some pk → c.id ≠ pk) :
    CategorySerializer.validate_name store u inst v =
      Except.error (ApiError.ValidationError "You already have a category with this name.") := by
  unfold CategorySerializer.validate_name
  have hq1 : c ∈ store.categories.filter fun x => x.user == u && iexact x.name v :=
    List.mem_filter.mpr ⟨hc, by simp [hcu, hcn]⟩
  cases inst with
  | none =>
    have hne : ((store.categories.filter fun x => x.user == u && iexact x.name v).isEmpty)
        = false := by
      rw [List.isEmpty_eq_false]
      exact List.ne_nil_of_mem hq1
    simp [hne]
  | some pk =>
    have hq2 : c ∈ (store.categories.filter fun x => x.user == u && iexact x.name v).filter
        fun x => x.id != pk :=
      List.mem_filter.mpr ⟨hq1, by simpa using hinst pk rfl⟩
    have hne : (((store.categories.filter fun x => x.user == u && iexact x.name v).filter
        fun x => x.id != pk).isEmpty) = false := by
      rw [List.isEmpty_eq_false]
      exact List.ne_nil_of_mem hq2
    simp only [hne]
    simp

theorem validate_name_clean {store : Store} {u : UserId} {v : String}
    {inst : Option CategoryId}
    (h : ∀ c ∈ store.categories, c.user = u → iexact c.name v = true →
      ∃ pk, inst = some pk ∧ c.id = pk) :
    CategorySerializer.validate_name store u inst v = Except.ok v := by
  unfold CategorySerializer.validate_name
  cases inst with
  | none =>
    have hnil : (store.categories.filter fun x => x.user == u && iexact x.name v) = [] := by
      rw [List.filter_eq_nil_iff]
      intro c hc hpred
      have hp2 : c.user = u ∧ iexact c.name v = true := by simpa using hpred
      rcases h c hc hp2.1 hp2.2 with ⟨pk, hpk, _⟩
      cases hpk
    simp [hnil]
  | some pk0 =>
    have hnil : ((store.categories.filter fun x => x.user == u && iexact x.name v).filter
        fun x => x.id != pk0) = [] := by
      rw [List.filter_eq_nil_iff]
      intro c hc hpred
      have hc1 := List.mem_filter.mp hc
      have hp2 : c.user = u ∧ iexact c.name v = true := by simpa using hc1.2
      rcases h c hc1.1 hp2.1 hp2.2 with ⟨pk, hpk, hcid⟩
      injection hpk with hpk
      subst hpk
      simp [hcid] at hpred
    simp [hnil]

theorem names_ok_map_rename {cats : List Category} {pk : CategoryId} {u : UserId}
    {v : String}
    (hnames : category_names_ok cats) (hids : category_ids_ok cats)
    (hno : ∀ c ∈ cats, c.id ≠ pk → c.user = u → iexact c.name v = false)
    (howner : ∀ c ∈ cats, c.id = pk → c.user = u) :
    category_names_ok
      (cats.map fun x => if x.id = pk then { x with name := v } else x) := by
  unfold category_names_ok
  rw [List.pairwise_map]
  have hcomb := hnames.and hids
  refine hcomb.imp_of_mem ?_
  intro a b ha hb hrel
  rcases hrel with ⟨hname, hneq⟩
  by_cases hap : a.id = pk <;> by_cases hbp : b.id = pk
  · exact absurd (hap.trans hbp.symm) hneq
  · simp only [if_pos hap, if_neg hbp]
    intro hu2
    have hau : a.user = u := howner a ha hap
    have hbu : b.user = u := by
      have h2 : a.user = b.user := hu2
      rw [← h2, hau]
    rw [iexact_symm]
    exact hno b hb hbp hbu
  · simp only [if_pos hbp, if_neg hap]
    intro hu2
    have hbu : b.user = u := howner b hb hbp
    have hau : a.user = u := by
      have h2 : a.user = b.user := hu2
      rw [h2, hbu]
    exact hno a ha hap hau
  · simp only [if_neg hap, if_neg hbp]
    exact hname

/-- C4: per-owner case-insensitive uniqueness of category names — creating a
name that collides (up to case) with a category of the same owner fails with
the duplicate ValidationError and changes nothing; a name free among the
owner's categories is accepted no matter what other owners have; create and
rename both preserve the uniqueness invariant; renaming a category to a name
colliding with a *different* category of the same owner fails; and renaming
a category to a case-variant of its own name succeeds because the instance
under update is excluded from the collision check. -/
theorem category_name_unique_per_owner (store : Store) (u : UserId) (v : String)
    (c0 : Category) (pk newId : CategoryId) (now : Time) :
    ((∃ c ∈ store.categories, c.user = u ∧ iexact c.name v = true) →
      CategoryViewSet.createEndpoint store u v newId now =
        (Except.error (ApiError.ValidationError "You already have a category with this name."),
         store)) ∧
    ((∀ c ∈ store.categories, c.user = u → iexact c.name v = false) →
      (CategoryViewSet.createEndpoint store u v newId now).1 =
        Except.ok { id := newId, user := u, name := v, created_at := now }) ∧
    (category_names_ok store.categories →
      category_names_ok ((CategoryViewSet.createEndpoint store u v newId now).2).categories) ∧
    (category_ids_ok store.categories → c0 ∈ store.categories → c0.user = u →
      (∃ c ∈ store.categories, c.user = u ∧ iexact c.name v = true ∧ c.id ≠ c0.id) →
      CategoryViewSet.updateEndpoint store u c0.id v =
        (Except.error (ApiError.ValidationError "You already have a category with this name."),
         store)) ∧
    (category_names_ok store.categories → category_ids_ok store.categories →
      c0 ∈ store.categories → c0.user = u → iexact c0.name v = true →
      (CategoryViewSet.updateEndpoint store u c0.id v).1 =
        Except.ok { c0 with name := v }) ∧
    (category_names_ok store.categories → category_ids_ok store.categories →
      category_names_ok ((CategoryViewSet.updateEndpoint store u pk v).2).categories) := by
  refine ⟨?_, ?_, ?_, ?_, ?_, ?_⟩
  · rintro ⟨c, hc, hcu, hcn⟩
    have hval := @validate_name_collision store u v none c hc hcu hcn
      (fun pk2 hpk2 => by cases hpk2)
    simp [CategoryViewSet.createEndpoint, hval]
  · intro hno
    have hval : CategorySerializer.validate_name store u none v = Except.ok v :=
      validate_name_clean
        (fun c hc hcu hcn => absurd hcn (by simp [hno c hc hcu]))
    simp [CategoryViewSet.createEndpoint, hval]
  · intro hnames
    by_cases hemp : (store.categories.filter fun x => x.user == u && iexact x.name v).isEmpty
    · have hval : CategorySerializer.validate_name store u none v = Except.ok v := by
        unfold CategorySerializer.validate_name
        simp [hemp]
      simp only [CategoryViewSet.createEndpoint, hval]
      unfold category_names_ok
      rw [List.pairwise_append]
      refine ⟨hnames, List.pairwise_singleton _ _, ?_⟩
      intro a ha b hb
      have hb2 : b = { id := newId, user := u, name := v, created_at := now } := by
        simpa using hb
      subst hb2
      intro hu2
      rw [List.isEmpty_iff] at hemp
      have hnp := List.filter_eq_nil_iff.mp hemp a ha
      by_contra hcn
      have hcn2 : iexact a.name v = true := by simpa using hcn
      exact hnp (by simp [hu2, hcn2])
    · have hemp2 : (store.categories.filter fun x => x.user == u && iexact x.name v).isEmpty
          = false := by simpa using hemp
      have hval : CategorySerializer.validate_name store u none v =
          Except.error (ApiError.ValidationError "You already have a category with this name.") := by
        unfold CategorySerializer.validate_name
        simp only [hemp2]
        simp
      simp only [CategoryViewSet.createEndpoint, hval]
      exact hnames
  · rintro hids hmem huser ⟨c, hc, hcu, hcn, hcne⟩
    have hobj := category_get_object_found hids hmem huser
    have hval := @validate_name_collision store u v (some c0.id) c hc hcu hcn
      (fun pk2 hpk2 => by cases hpk2; exact hcne)
    simp [CategoryViewSet.updateEndpoint, hobj, hval]
  · intro hnames hids hmem huser hcn
    have hobj := category_get_object_found hids hmem huser
    have hval : CategorySerializer.validate_name store u (some c0.id) v = Except.ok v := by
      apply validate_name_clean
      intro c hc hcu hcn2
      have hec : c = c0 :=
        names_ok_mem_eq hnames hc hmem (by rw [hcu, huser]) (iexact_trans_pair hcn2 hcn)
      exact ⟨c0.id, rfl, by rw [hec]⟩
    simp [CategoryViewSet.updateEndpoint, hobj, hval]
  · intro hnames hids
    cases hobj : CategoryViewSet.get_object store u pk with
    | error e =>
      simp only [CategoryViewSet.updateEndpoint, hobj]
      exact hnames
    | ok c1 =>
      rcases category_get_object_facts hobj with ⟨hm1, hu1, hid1⟩
      have hred : CategorySerializer.validate_name store u (some pk) v =
          if ((store.categories.filter fun c => c.user == u && iexact c.name v).filter
              fun c => c.id != pk).isEmpty
          then Except.ok v
          else Except.error
            (ApiError.ValidationError "You already have a category with this name.") := rfl
      by_cases hemp : ((store.categories.filter fun x => x.user == u && iexact x.name v).filter
          fun x => x.id != pk) = []
      · have hval : CategorySerializer.validate_name store u (some pk) v = Except.ok v := by
          rw [hred, if_pos]
          simp [hemp]
        simp only [CategoryViewSet.updateEndpoint, hobj, hval]
        have hno : ∀ c ∈ store.categories, c.id ≠ pk → c.user = u →
            iexact c.name v = false := by
          intro c hc hcne hcu
          by_contra hcn
          have hcn2 : iexact c.name v = true := by simpa using hcn
          have hq1 : c ∈ store.categories.filter fun x => x.user == u && iexact x.name v :=
            List.mem_filter.mpr ⟨hc, by simp [hcu, hcn2]⟩
          have hq2 : c ∈ (store.categories.filter fun x =>
              x.user == u && iexact x.name v).filter fun x => x.id != pk :=
            List.mem_filter.mpr ⟨hq1, by simpa using hcne⟩
          rw [hemp] at hq2
          cases hq2
        have howner : ∀ c ∈ store.categories, c.id = pk → c.user = u := by
          intro c hc hcid
          have hec : c = c1 := ids_ok_mem_eq hids hc hm1 (by rw [hcid, hid1])
          rw [hec, hu1]
        exact names_ok_map_rename hnames hids hno howner
      · have hval : CategorySerializer.validate_name store u (some pk) v =
            Except.error
              (ApiError.ValidationError "You already have a category with this name.") := by
          rw [hred, if_neg]
          intro hfalse
          exact hemp (List.isEmpty_iff.mp hfalse)
        simp only [CategoryViewSet.updateEndpoint, hobj, hval]
        exact hnames

/-- Witness for `category_name_unique_per_owner` replaying the spec scenario:
user 1 owns "Work", so creating "work" for user 1 fails, creating "Work" for
user 2 succeeds, and renaming user 1's category 1 to "WORK" (a case-variant
of its own name) succeeds. -/
theorem category_name_unique_per_owner_witness :
    CategoryViewSet.createEndpoint demoStore 1 "work" 9 5 =
      (Except.error (ApiError.ValidationError "You already have a category with this name."),
       demoStore) ∧
    (CategoryViewSet.createEndpoint demoStore 2 "Work" 9 5).1 =
      Except.ok { id := 9, user := 2, name := "Work", created_at := 5 } ∧
    (CategoryViewSet.updateEndpoint demoStore 1 1 "WORK").1 =
      Except.ok { demoCat1 with name := "WORK" } :=
  ⟨(category_name_unique_per_owner demoStore 1 "work" demoCat1 1 9 5).1
      ⟨demoCat1, by decide, by decide, by decide⟩,
   (category_name_unique_per_owner demoStore 2 "Work" demoCat1 1 9 5).2.1
      (by decide),
   (category_name_unique_per_owner demoStore 1 "WORK" demoCat1 1 9 5).2.2.2.2.1
      (by decide) (by decide) (by decide) (by decide) (by decide)⟩

/-- C3: the toggle action sets COMPLETED (stamping `completed_at := now`) on an
explicit `"COMPLETED"` body regardless of current state, sets PENDING (clearing
`completed_at`) on an explicit `"PENDING"` body, and on any other body flips
the current state; the updated entity is what is returned. -/
theorem toggle_dispatch (t : Task) (body : Option String) (now : Time) :
    (body = some "COMPLETED" →
      (TaskViewSet.toggleAction t body now).status = Status.COMPLETED ∧
      (TaskViewSet.toggleAction t body now).completed_at = some now) ∧
    (body = some "PENDING" →
      (TaskViewSet.toggleAction t body now).status = Status.PENDING ∧
      (TaskViewSet.toggleAction t body now).completed_at = none) ∧
    (body ≠ some "COMPLETED" → body ≠ some "PENDING" →
      (t.status = Status.PENDING →
        (TaskViewSet.toggleAction t body now).status = Status.COMPLETED ∧
        (TaskViewSet.toggleAction t body now).completed_at = some now) ∧
      (t.status = Status.COMPLETED →
        (TaskViewSet.toggleAction t body now).status = Status.PENDING ∧
        (TaskViewSet.toggleAction t body now).completed_at = none)) := by
  refine ⟨?_, ?_, ?_⟩
  · intro h
    simp [TaskViewSet.toggleAction, h, Task.mark_complete]
  · intro h
    simp [TaskViewSet.toggleAction, h, Task.mark_incomplete]
  · intro h1 h2
    constructor
    · intro hp
      simp [TaskViewSet.toggleAction, h1, h2, hp, Task.mark_complete]
    · intro hc
      have hp : t.status ≠ Status.PENDING := by
        rw [hc]; intro hcontra; cases hcontra
      simp [TaskViewSet.toggleAction, h1, h2, hp, Task.mark_incomplete]

/-- Witness for `toggle_dispatch` at a concrete pending task and an absent
body: the flip branch runs and completes the task. -/
theorem toggle_dispatch_witness :
    (TaskViewSet.toggleAction
      { id := 1, user := 1, category := none, title := "t", description := "",
        due_date := 0, priority := Priority.MEDIUM, status := Status.PENDING,
        completed_at := none, created_at := 0, updated_at := 0 }
      none 5).status = Status.COMPLETED ∧
    (TaskViewSet.toggleAction
      { id := 1, user := 1, category := none, title := "t", description := "",
        due_date := 0, priority := Priority.MEDIUM, status := Status.PENDING,
        completed_at := none, created_at := 0, updated_at := 0 }
      none 5).completed_at = some 5 :=
  ((toggle_dispatch
      { id := 1, user := 1, category := none, title := "t", description := "",
        due_date := 0, priority := Priority.MEDIUM, status := Status.PENDING,
        completed_at := none, created_at := 0, updated_at := 0 }
      none 5).2.2 (by decide) (by decide)).1 (by decide)

/-- C7: toggling a PENDING task twice (with no body) first completes it and
then returns it to PENDING with a null `completed_at`. -/
theorem toggle_double (t : Task) (n1 n2 : Time) (h : t.status = Status.PENDING) :
    (TaskViewSet.toggleAction t none n1).status = Status.COMPLETED ∧
    (TaskViewSet.toggleAction (TaskViewSet.toggleAction t none n1) none n2).status
      = Status.PENDING ∧
    (TaskViewSet.toggleAction (TaskViewSet.toggleAction t none n1) none n2).completed_at
      = none := by
  simp [TaskViewSet.toggleAction, h, Task.mark_complete, Task.mark_incomplete]

/-- Witness for `toggle_double` on a concrete pending task. -/
theorem toggle_double_witness :
    (TaskViewSet.toggleAction
      { id := 2, user := 1, category := none, title := "w", description := "",
        due_date := 0, priority := Priority.LOW, status := Status.PENDING,
        completed_at := none, created_at := 0, updated_at := 0 }
      none 3).status = Status.COMPLETED ∧
    (TaskViewSet.toggleAction (TaskViewSet.toggleAction
      { id := 2, user := 1, category := none, title := "w", description := "",
        due_date := 0, priority := Priority.LOW, status := Status.PENDING,
        completed_at := none, created_at := 0, updated_at := 0 }
      none 3) none 4).status = Status.PENDING ∧
    (TaskViewSet.toggleAction (TaskViewSet.toggleAction
      { id := 2, user := 1, category := none, title := "w", description := "",
        due_date := 0, priority := Priority.LOW, status := Status.PENDING,
        completed_at := none, created_at := 0, updated_at := 0 }
      none 3) none 4).completed_at = none :=
  toggle_double
    { id := 2, user := 1, category := none, title := "w", description := "",
      due_date := 0, priority := Priority.LOW, status := Status.PENDING,
      completed_at := none, created_at := 0, updated_at := 0 }
    3 4 (by decide)

/-- C10: the toggle action only ever writes `status`, `completed_at` and
`updated_at`; every other field of the task (id, owner, title, description,
due date, priority, category reference, creation timestamp) is unchanged, for
every body and every current state. -/
theorem toggle_frame (t : Task) (body : Option String) (now : Time) :
    (TaskViewSet.toggleAction t body now).id = t.id ∧
    (TaskViewSet.toggleAction t body now).user = t.user ∧
    (TaskViewSet.toggleAction t body now).title = t.title ∧
    (TaskViewSet.toggleAction t body now).description = t.description ∧
    (TaskViewSet.toggleAction t body now).due_date = t.due_date ∧
    (TaskViewSet.toggleAction t body now).priority = t.priority ∧
    (TaskViewSet.toggleAction t body now).category = t.category ∧
    (TaskViewSet.toggleAction t body now).created_at = t.created_at := by
  by_cases h1 : body = some "COMPLETED" <;>
    by_cases h2 : body = some "PENDING" <;>
    by_cases h3 : t.status = Status.PENDING <;>
    simp [TaskViewSet.toggleAction, Task.mark_complete, Task.mark_incomplete, h1, h2, h3]

end TaskApi
